import Mathlib

/-!
Shallow embedding of the chunked, resumable EPS-extraction pipeline in
src/enhanced_eps_extraction.py.

The program stores work in a pandas DataFrame with an index column, a
column of URL lists named xbrl, and a result column named eps.  The eps
cell of a row is either the empty-string sentinel (written here as
Eps.blank, meaning still pending) or a recorded list of per-URL optional
values (Eps.vals); the recorded empty list marks a failed row.  We embed
a row as a WorkItem carrying its index label (key), its URL list (xbrl)
and its eps cell, and a DataFrame as a list of rows.  Scalar column
comparisons and cell writes are modelled element-wise by row; cell
writes by label (DataFrame.at) write to every row carrying that label.
Comparing a column with a list operand is not element-wise: pandas
length-checks the operand and raises ValueError on a mismatch, which
the progress and resume functions below surface as an explicit error
value.

Network and thread-pool behaviour is modelled by two environments:
a fetch environment giving, per URL, the combined outcome of the HTTP
get, raise_for_status and document parse (an exception or a parsed
document), and a pool environment giving, per row key, the outcome of
that row in the executor (result delivered, per-batch timeout, other
exception, or cut off because the chunk-level as_completed deadline
fired before the future was collected).
-/

namespace StockEps

/-- Outcome classes of the Python try blocks around fetching and parsing:
a requests timeout, an HTTP status error raised by raise_for_status, or
any other exception. -/
inductive PyExn where
  | timeout
  | httpError
  | other
  deriving DecidableEq

/-- A parsed XBRL document, reduced to the two tags the code looks up:
the text (already stripped) of the BasicEarningsLossPerShare tag with
contextRef FourD, and of the DilutedEarningsPerShareAfterExtraordinaryItems
tag, each absent when the tag is not found. -/
structure Doc where
  basicEpsTag : Option String
  dilutedEpsTag : Option String
  deriving DecidableEq

/-- Fetch environment: for each URL, the outcome of session.get,
raise_for_status and the BeautifulSoup parse, collapsed into one
exception-or-document result. -/
def FetchEnv : Type := String → Except PyExn Doc

/-- The body of the try block of extract_eps_from_url (lines 54 to 80):
fetch and parse the document, read the basic-EPS tag, and fall back to
the diluted-EPS tag only when the first value is None. -/
def extract_eps_body (env : FetchEnv) (url : String) : Except PyExn (Option String) :=
  match env url with
  | Except.error e => Except.error e
  | Except.ok doc =>
      match doc.basicEpsTag with
      | some v => Except.ok (some v)
      | none => Except.ok doc.dilutedEpsTag

/-- extract_eps_from_url (lines 52 to 102): the two except handlers log
the failure and return None, so every exception of the body is mapped to
none and nothing propagates. -/
def extract_eps_from_url (env : FetchEnv) (url : String) : Option String :=
  match extract_eps_body env url with
  | Except.ok v => v
  | Except.error _ => none

/-- process_url_batch (lines 104 to 118): one extraction per URL in
order; the per-URL tryancatch never fires because extract_eps_from_url
returns instead of raising, so the batch is a plain map. -/
def process_url_batch (env : FetchEnv) (urls : List String) : List (Option String) :=
  urls.map (extract_eps_from_url env)

/-- The eps cell of a row: the empty-string sentinel set at line 135
(still pending), or a recorded list of per-URL values; the recorded
empty list is the failure marker written at lines 179, 185, 196. -/
inductive Eps where
  | blank
  | vals (l : List (Option String))
  deriving DecidableEq

/-- One row of the DataFrame: index label, URL list of the xbrl column,
and the eps cell. -/
structure WorkItem where
  key : Nat
  xbrl : List String
  eps : Eps
  deriving DecidableEq

instance : Inhabited WorkItem := ⟨⟨0, [], Eps.blank⟩⟩

/-- A work set is the ordered list of rows of the DataFrame. -/
abbrev WorkSet : Type := List WorkItem

/-- The three-state status of the specification, decoded from the eps
sentinel convention of the code: blank is Pending, a recorded empty
list is Failed, a recorded non-empty list is Succeeded. -/
inductive Status where
  | pending
  | succeeded
  | failed
  deriving DecidableEq

/-- Status of a row under the sentinel convention. -/
def WorkItem.status (it : WorkItem) : Status :=
  match it.eps with
  | Eps.blank => Status.pending
  | Eps.vals [] => Status.failed
  | Eps.vals (_ :: _) => Status.succeeded

/-- Outcome of one submitted row in the thread pool of one chunk:
the future delivered its result list (line 173), the per-batch
future.result call raised TimeoutError (lines 177 to 181), it raised
another exception (lines 183 to 187), or the chunk-level as_completed
deadline fired before this future was collected so the row was never
recorded inside the loop.  The two exception outcomes model the except
branches as written; execution cannot reach them, since as_completed
yields only completed futures and the task body returns instead of
raising (see collect_completed_row and item_timeout_dead), so completed
and cut are the outcomes that occur. -/
inductive ItemOutcome where
  | completed
  | batchTimeout
  | batchError
  | cut
  deriving DecidableEq

/-- Pool environment: outcome of the executor for each row key. -/
def PoolEnv : Type := Nat → ItemOutcome

/-- What the as_completed loop (lines 166 to 187) writes for one row:
the delivered batch result, the empty list on a per-batch timeout or
other exception, and nothing at all for a row cut off by the chunk
deadline. -/
def record_outcome (env : FetchEnv) (pool : PoolEnv) (it : WorkItem) : WorkItem :=
  match pool it.key with
  | ItemOutcome.completed => { it with eps := Eps.vals (process_url_batch env it.xbrl) }
  | ItemOutcome.batchTimeout => { it with eps := Eps.vals [] }
  | ItemOutcome.batchError => { it with eps := Eps.vals [] }
  | ItemOutcome.cut => it

/-- The chunk-level except handlers (lines 191 to 203): every row of the
chunk whose eps cell still holds the empty-string sentinel is marked
with the empty list. -/
def mark_unprocessed_failed (it : WorkItem) : WorkItem :=
  if it.eps = Eps.blank then { it with eps := Eps.vals [] } else it

/-- Whether the chunk as a whole hit its deadline: true exactly when
some future of the chunk was still uncollected when as_completed raised
TimeoutError. -/
def chunk_timed_out (pool : PoolEnv) (chunk : List WorkItem) : Bool :=
  chunk.any (fun it => pool it.key == ItemOutcome.cut)

/-- Processing of one chunk (lines 158 to 203): collect the recorded
outcomes, and when the chunk deadline fired run the except handler that
marks still-pending rows with the empty list. -/
def process_chunk (env : FetchEnv) (pool : PoolEnv) (chunk : List WorkItem) :
    List WorkItem :=
  let recorded := chunk.map (record_outcome env pool)
  if chunk_timed_out pool chunk then recorded.map mark_unprocessed_failed else recorded

/-- Fuel-driven slicing behind chunk_slices; fuel starts at the list
length and dominates it throughout. -/
def chunk_slices_aux (n : Nat) : Nat → List WorkItem → List (List WorkItem)
  | _, [] => []
  | 0, _ :: _ => []
  | fuel + 1, a :: l => ((a :: l).take n) :: chunk_slices_aux n fuel ((a :: l).drop n)

/-- The chunk loop bounds (lines 149 to 152): consecutive slices of at
most n rows, in order, exactly the slices url_batches[start : start + n]
for start in range(0, len, n).  For n = 0 the Python range call raises,
so no slices are produced. -/
def chunk_slices (n : Nat) (l : List WorkItem) : List (List WorkItem) :=
  if n = 0 then [] else chunk_slices_aux n l.length l

/-- Line 135: the eps column is reinitialised to the empty-string
sentinel for every row before any work is selected. -/
def reset_eps (ws : WorkSet) : WorkSet :=
  (ws : List WorkItem).map (fun it => { it with eps := Eps.blank })

/-- Lines 138 to 144: the rows whose xbrl list is non-empty, in order;
these are the url_batches submitted to the pool, each paired with its
row label through the key field. -/
def select_batches (ws : WorkSet) : List WorkItem :=
  (ws : List WorkItem).filter (fun it => it.xbrl.length != 0)

/-- One DataFrame.at write of an eps cell at a row label: every row
carrying that label receives the value. -/
def set_eps (ws : WorkSet) (k : Nat) (e : Eps) : WorkSet :=
  (ws : List WorkItem).map (fun it => if it.key = k then { it with eps := e } else it)

/-- The per-row result writes: each processed row writes its eps cell
back into the frame at its own label (lines 174, 179, 185, 196 inside
extract, lines 275 to 277 inside resume). -/
def merge_results (ws : WorkSet) (updates : List WorkItem) : WorkSet :=
  updates.foldl (fun acc u => set_eps acc u.key u.eps) ws

/-- extract_eps_with_requests_html_chunked (lines 120 to 213): reset the
eps column, select the rows with URLs, slice them into chunks of at most
chunk_size, process the chunks in order, and write every recorded eps
cell back into the frame at its row label. -/
def extract_eps_with_requests_html_chunked (env : FetchEnv) (pool : PoolEnv)
    (chunk_size : Nat) (ws : WorkSet) : WorkSet :=
  let ws0 := reset_eps ws
  let url_batches := select_batches ws0
  let processed := ((chunk_slices chunk_size url_batches).map (process_chunk env pool)).flatten
  merge_results ws0 processed

/-- The progress dictionary of check_processing_progress (lines 230 to
236).  The pending count is a Python int and may be negative, and the
completion percentage is a Python float ratio, modelled as a rational. -/
structure ProgressInfo where
  total_batches : Nat
  processed_batches : Nat
  failed_batches : Nat
  pending_batches : Int
  completion_percentage : ℚ
  deriving DecidableEq

/-- The pandas ValueError raised when a Series is compared with a
list-like operand whose length differs from the Series length (message:
Lengths must match to compare). -/
inductive PandasError where
  | lengthsMustMatch
  deriving DecidableEq

/-- check_processing_progress (lines 215 to 241).  Line 226 compares the
eps column with the empty-string scalar, element-wise.  Line 227
compares the eps column with the empty list: pandas length-checks a
list operand against the column, so on every frame with at least one
row the lengths (the row count against zero) differ and ValueError is
raised before any snapshot is built.  Only on the empty frame do the
lengths match: the filters are empty and the all-zero dictionary of
lines 230 to 236 is returned. -/
def check_processing_progress (ws : WorkSet) : Except PandasError ProgressInfo :=
  let total := (ws : List WorkItem).length
  let processed := ((ws : List WorkItem).filter (fun it => it.eps != Eps.blank)).length
  if total = 0 then
    let failed := ((ws : List WorkItem).filter (fun it => it.eps == Eps.vals [])).length
    Except.ok
      { total_batches := total
        processed_batches := processed
        failed_batches := failed
        pending_batches := (total : Int) - (processed : Int) - (failed : Int)
        completion_percentage := if total > 0 then (processed : ℚ) / (total : ℚ) * 100 else 0 }
  else Except.error PandasError.lengthsMustMatch

/-- resume_eps_extraction (lines 243 to 282), with the in-place frame
state made explicit: the value pairs the state of the caller's frame
after the call with the exception that propagated, if any.  The first
statement (line 256) calls check_processing_progress, which raises on
every non-empty frame; that raise happens before any row is selected,
submitted or written, so on that path the frame comes back untouched.
Only the empty frame gets past the call, with a pending count of zero,
and is returned unchanged at line 260; the selection, extraction and
merge of lines 262 to 277 are unreachable. -/
def resume_eps_extraction (env : FetchEnv) (pool : PoolEnv) (chunk_size : Nat)
    (ws : WorkSet) : WorkSet × Option PandasError :=
  match check_processing_progress ws with
  | Except.error e => (ws, some e)
  | Except.ok progress =>
    if progress.pending_batches = 0 then (ws, none)
    else
      let unprocessed := (ws : List WorkItem).filter (fun it => it.eps == Eps.blank)
      let processed_unprocessed :=
        extract_eps_with_requests_html_chunked env pool chunk_size unprocessed
      (merge_results ws processed_unprocessed, none)

/-!  Characterisation layer: per-row description of what one run of the
chunked extractor writes into each row, proved from the definitions
above.  -/

/-- Final value the pool loop leaves in one submitted row: the delivered
batch on a completed future, the empty list on a per-batch timeout, on
another exception, or on a chunk-deadline cut. -/
def record_final (env : FetchEnv) (pool : PoolEnv) (it : WorkItem) : WorkItem :=
  match pool it.key with
  | ItemOutcome.completed => { it with eps := Eps.vals (process_url_batch env it.xbrl) }
  | ItemOutcome.batchTimeout => { it with eps := Eps.vals [] }
  | ItemOutcome.batchError => { it with eps := Eps.vals [] }
  | ItemOutcome.cut => { it with eps := Eps.vals [] }

/-- Per-row effect of one run of the chunked extractor: rows with URLs
end at their pool outcome, rows without URLs keep the sentinel written
by the column reset. -/
def extract_item (env : FetchEnv) (pool : PoolEnv) (it : WorkItem) : WorkItem :=
  if it.xbrl.length != 0 then record_final env pool it
  else { it with eps := Eps.blank }

theorem record_final_key (env : FetchEnv) (pool : PoolEnv) (it : WorkItem) :
    (record_final env pool it).key = it.key := by
  unfold record_final
  cases pool it.key <;> rfl

theorem extract_item_key (env : FetchEnv) (pool : PoolEnv) (it : WorkItem) :
    (extract_item env pool it).key = it.key := by
  unfold extract_item
  by_cases h : it.xbrl.length != 0
  · simp only [h, if_true, record_final_key]
  · simp [h]

/-- The pool loop on a chunk of still-pending rows acts row by row. -/
theorem process_chunk_eq (env : FetchEnv) (pool : PoolEnv) (chunk : List WorkItem)
    (hb : ∀ it ∈ chunk, it.eps = Eps.blank) :
    process_chunk env pool chunk = chunk.map (record_final env pool) := by
  unfold process_chunk
  by_cases h : chunk_timed_out pool chunk
  · simp only [h, if_true, List.map_map]
    apply List.map_congr_left
    intro it hit
    have he := hb it hit
    simp only [Function.comp_apply]
    unfold record_outcome mark_unprocessed_failed record_final
    cases hp : pool it.key <;> simp [he]
  · have hfalse : chunk_timed_out pool chunk = false := by
      cases hb2 : chunk_timed_out pool chunk
      · rfl
      · exact absurd hb2 h
    simp only [hfalse, Bool.false_eq_true, if_false]
    apply List.map_congr_left
    intro it hit
    have hany : chunk.any (fun it => pool it.key == ItemOutcome.cut) = false := hfalse
    have hnc : ¬(pool it.key == ItemOutcome.cut) = true :=
      List.any_eq_false.1 hany it hit
    unfold record_outcome record_final
    cases hp : pool it.key <;> simp_all

theorem chunk_slices_aux_flatten (n : Nat) (hn : 0 < n) :
    ∀ (fuel : Nat) (l : List WorkItem), l.length ≤ fuel →
      (chunk_slices_aux n fuel l).flatten = l := by
  intro fuel
  induction fuel with
  | zero =>
    intro l hl
    cases l with
    | nil => rfl
    | cons a t => exact absurd hl (by simp)
  | succ f ih =>
    intro l hl
    cases l with
    | nil => rfl
    | cons a t =>
      show ((a :: t).take n :: chunk_slices_aux n f ((a :: t).drop n)).flatten = a :: t
      rw [List.flatten_cons, ih ((a :: t).drop n) (by
        simp only [List.length_drop]
        omega), List.take_append_drop]

/-- The slices cover the selected rows exactly and in order. -/
theorem chunk_slices_flatten (n : Nat) (hn : 0 < n) (l : List WorkItem) :
    (chunk_slices n l).flatten = l := by
  unfold chunk_slices
  rw [if_neg (Nat.pos_iff_ne_zero.1 hn)]
  exact chunk_slices_aux_flatten n hn l.length l le_rfl

theorem chunk_slices_aux_length_le (n : Nat) :
    ∀ (fuel : Nat) (l : List WorkItem), ∀ c ∈ chunk_slices_aux n fuel l, c.length ≤ n := by
  intro fuel
  induction fuel with
  | zero =>
    intro l c hc
    cases l <;> simp [chunk_slices_aux] at hc
  | succ f ih =>
    intro l c hc
    cases l with
    | nil => simp [chunk_slices_aux] at hc
    | cons a t =>
      simp only [chunk_slices_aux] at hc
      rcases List.mem_cons.1 hc with hc | hc
      · exact hc ▸ List.length_take_le n (a :: t)
      · exact ih _ c hc

/-- Every slice holds at most n rows. -/
theorem chunk_slices_length_le (n : Nat) (l : List WorkItem) :
    ∀ c ∈ chunk_slices n l, c.length ≤ n := by
  intro c hc
  unfold chunk_slices at hc
  by_cases h : n = 0
  · simp [h] at hc
  · rw [if_neg h] at hc
    exact chunk_slices_aux_length_le n l.length l c hc

theorem chunk_slices_subset (n : Nat) (hn : 0 < n) (l : List WorkItem)
    (c : List WorkItem) (hc : c ∈ chunk_slices n l) :
    ∀ it ∈ c, it ∈ l := by
  intro it hit
  have : it ∈ (chunk_slices n l).flatten := List.mem_flatten_of_mem hc hit
  rwa [chunk_slices_flatten n hn l] at this

/-- Chunk-by-chunk processing of an all-pending selection acts row by
row over the whole selection, in order. -/
theorem processed_eq (env : FetchEnv) (pool : PoolEnv) (n : Nat) (hn : 0 < n)
    (l : List WorkItem) (hb : ∀ it ∈ l, it.eps = Eps.blank) :
    ((chunk_slices n l).map (process_chunk env pool)).flatten =
      l.map (record_final env pool) := by
  have hcong : ∀ c ∈ chunk_slices n l,
      process_chunk env pool c = c.map (record_final env pool) := by
    intro c hc
    exact process_chunk_eq env pool c
      (fun it hit => hb it (chunk_slices_subset n hn l c hc it hit))
  rw [List.map_congr_left hcong, ← List.map_flatten, chunk_slices_flatten n hn l]

/-- Cumulative effect on one row of the sequence of per-row result
writes. -/
def apply_updates (updates : List WorkItem) (it : WorkItem) : WorkItem :=
  updates.foldl (fun x u => if x.key = u.key then { x with eps := u.eps } else x) it

theorem merge_results_eq_map (updates : List WorkItem) :
    ∀ ws : WorkSet, merge_results ws updates = ws.map (apply_updates updates) := by
  induction updates with
  | nil =>
    intro ws
    show ws = ws.map (fun it => it)
    rw [List.map_id']
  | cons u us ih =>
    intro ws
    show merge_results (set_eps ws u.key u.eps) us = _
    rw [ih (set_eps ws u.key u.eps)]
    unfold set_eps
    rw [List.map_map]
    rfl

theorem apply_updates_no_match (it : WorkItem) :
    ∀ updates : List WorkItem, (∀ u ∈ updates, u.key ≠ it.key) →
      apply_updates updates it = it := by
  intro updates
  induction updates with
  | nil => intro _; rfl
  | cons u us ih =>
    intro h
    show apply_updates us (if it.key = u.key then { it with eps := u.eps } else it) = it
    rw [if_neg (fun he => h u (List.mem_cons_self u us) he.symm)]
    exact ih (fun v hv => h v (List.mem_cons_of_mem u hv))

theorem apply_updates_append (l1 l2 : List WorkItem) (it : WorkItem) :
    apply_updates (l1 ++ l2) it = apply_updates l2 (apply_updates l1 it) := by
  unfold apply_updates
  rw [List.foldl_append]

/-- Writing back the results of a key-preserving transformation of a
filtered sub-frame updates exactly the filtered rows, when the row
labels are distinct. -/
theorem merge_filter_map (ws : WorkSet) (p : WorkItem → Bool) (f : WorkItem → WorkItem)
    (hk : (ws.map WorkItem.key).Nodup)
    (hf : ∀ it, (f it).key = it.key) :
    merge_results ws ((ws.filter p).map f) =
      ws.map (fun it => if p it then { it with eps := (f it).eps } else it) := by
  rw [merge_results_eq_map]
  apply List.map_congr_left
  intro it hit
  by_cases hp : p it
  · rw [if_pos hp]
    have hmem : it ∈ ws.filter p := List.mem_filter.2 ⟨hit, hp⟩
    obtain ⟨l1, l2, hsplit⟩ := List.append_of_mem hmem
    have hnd : ((ws.filter p).map WorkItem.key).Nodup :=
      ((List.filter_sublist ws).map WorkItem.key).nodup (by exact hk)
    rw [hsplit, List.map_append, List.map_cons] at hnd
    have hnd' := List.nodup_append.1 hnd
    have h1 : ∀ u ∈ l1, u.key ≠ it.key := by
      intro u hu he
      exact hnd'.2.2 (he ▸ List.mem_map_of_mem WorkItem.key hu)
        (List.mem_cons_self _ _)
    have h2 : ∀ u ∈ l2, u.key ≠ it.key := by
      intro u hu he
      exact (List.nodup_cons.1 hnd'.2.1).1 (he ▸ List.mem_map_of_mem WorkItem.key hu)
    rw [hsplit, List.map_append, List.map_cons, apply_updates_append]
    rw [apply_updates_no_match it (l1.map f) (by
      intro u hu
      obtain ⟨v, hv, rfl⟩ := List.mem_map.1 hu
      rw [hf]
      exact h1 v hv)]
    show apply_updates (l2.map f) (if it.key = (f it).key then _ else _) = _
    rw [if_pos (hf it).symm]
    exact apply_updates_no_match _ (l2.map f) (by
      intro u hu
      obtain ⟨v, hv, rfl⟩ := List.mem_map.1 hu
      rw [hf]
      exact h2 v hv)
  · rw [if_neg hp]
    apply apply_updates_no_match
    intro u hu
    obtain ⟨v, hv, rfl⟩ := List.mem_map.1 hu
    rw [hf]
    intro he
    have hvw := List.mem_filter.1 hv
    exact hp (List.inj_on_of_nodup_map hk hvw.1 hit he ▸ hvw.2)

theorem reset_eps_keys (ws : WorkSet) :
    (reset_eps ws).map WorkItem.key = ws.map WorkItem.key := by
  unfold reset_eps
  rw [List.map_map]
  rfl

/-- One run of the chunked extractor acts row by row: with distinct row
labels and a positive chunk size, the resulting frame is the original
frame with every eps cell rewritten to the per-row outcome. -/
theorem extract_eq_map (env : FetchEnv) (pool : PoolEnv) (n : Nat) (ws : WorkSet)
    (hk : (ws.map WorkItem.key).Nodup) (hn : 0 < n) :
    extract_eps_with_requests_html_chunked env pool n ws =
      ws.map (extract_item env pool) := by
  unfold extract_eps_with_requests_html_chunked
  dsimp only
  have hb : ∀ it ∈ select_batches (reset_eps ws), it.eps = Eps.blank := by
    intro it hit
    have hmem := (List.mem_filter.1 hit).1
    unfold reset_eps at hmem
    obtain ⟨v, hv, rfl⟩ := List.mem_map.1 hmem
    rfl
  have hk0 : ((reset_eps ws).map WorkItem.key).Nodup := by
    rw [reset_eps_keys]
    exact hk
  rw [processed_eq env pool n hn _ hb]
  have hsel : select_batches (reset_eps ws) =
      (reset_eps ws).filter (fun it => it.xbrl.length != 0) := rfl
  rw [hsel, merge_filter_map (reset_eps ws) _ (record_final env pool) hk0
    (record_final_key env pool)]
  unfold reset_eps
  rw [List.map_map]
  apply List.map_congr_left
  intro it _
  simp only [Function.comp_apply]
  cases it with
  | mk k x e =>
    unfold extract_item record_final
    by_cases hx : List.length x != 0 <;> cases hp : pool k <;> simp [hx, hp]

theorem getD_lt {α : Type} (l : List α) (d : α) (i : Nat) (h : i < l.length) :
    l.getD i d = l[i] := by
  simp [List.getD_eq_getElem?_getD, List.getElem?_eq_getElem h]

/-- Rows whose decoded status is Pending, in the vocabulary of the
specification. -/
def pending_count (ws : WorkSet) : Nat :=
  (ws.filter (fun it => it.status == Status.pending)).length

/-- A one-row frame whose single row is Failed (recorded empty list). -/
def ws1 : WorkSet := [⟨0, ["u"], Eps.vals []⟩]

theorem check_nonempty (ws : WorkSet) (hne : ws ≠ []) :
    check_processing_progress ws = Except.error PandasError.lengthsMustMatch := by
  unfold check_processing_progress
  dsimp only
  rw [if_neg (fun h => hne (List.length_eq_zero.1 h))]

/-- C1 (code bug): the snapshot never exists on a non-empty frame: the
comparison of the eps column with the empty list at line 227 raises the
pandas length mismatch error, in particular at the one-Failed-row frame
ws1, so none of the claimed snapshot formulas can even be evaluated
there; only the empty frame returns a snapshot, the all-zero one, which
does satisfy the claimed formulas trivially. -/
theorem check_progress_raises :
    check_processing_progress ws1 = Except.error PandasError.lengthsMustMatch
    ∧ (∀ ws : WorkSet, ws ≠ [] →
        check_processing_progress ws = Except.error PandasError.lengthsMustMatch)
    ∧ check_processing_progress ([] : WorkSet)
        = Except.ok
            { total_batches := 0
              processed_batches := 0
              failed_batches := 0
              pending_batches := 0
              completion_percentage := 0 } :=
  ⟨check_nonempty ws1 (by decide), fun ws hne => check_nonempty ws hne, rfl⟩

/-- Concrete environments and a concrete frame used by the witness
theorems: one resolvable URL, one row without URLs, one row whose pool
outcome is a per-batch timeout. -/
def env0 : FetchEnv := fun u =>
  if u = "u" then Except.ok ⟨some "1.5", none⟩ else Except.error PyExn.timeout

def pool0 : PoolEnv := fun k =>
  if k = 2 then ItemOutcome.batchTimeout else ItemOutcome.completed

def wsW : WorkSet :=
  [⟨0, ["u"], Eps.blank⟩, ⟨1, [], Eps.vals []⟩, ⟨2, ["u", "v"], Eps.vals [some "1.5"]⟩]

/-- One Succeeded row: a non-empty frame with no Pending items, on
which the claim promises that resume returns the frame unchanged. -/
def wsDone : WorkSet := [⟨0, ["u"], Eps.vals [some "1.5"]⟩]

/-- C2 (code bug): resume never returns on a non-empty frame: its first
statement (line 256) calls check_processing_progress, which raises the
pandas length mismatch error there.  At wsDone, which holds no Pending
rows, the claimed unchanged return never happens: the call raises
instead, so the idempotence equation is about return values that do not
exist.  The only frame on which resume returns is the empty one, where
it is a no-op and trivially idempotent. -/
theorem resume_raises :
    (resume_eps_extraction env0 pool0 50 wsDone).2 = some PandasError.lengthsMustMatch
    ∧ pending_count wsDone = 0
    ∧ (∀ (env : FetchEnv) (pool : PoolEnv) (n : Nat) (ws : WorkSet), ws ≠ [] →
        (resume_eps_extraction env pool n ws).2 = some PandasError.lengthsMustMatch)
    ∧ ∀ (env : FetchEnv) (pool : PoolEnv) (n : Nat),
        resume_eps_extraction env pool n (resume_eps_extraction env pool n []).1
          = resume_eps_extraction env pool n [] := by
  have hraise : ∀ (env : FetchEnv) (pool : PoolEnv) (n : Nat) (ws : WorkSet), ws ≠ [] →
      (resume_eps_extraction env pool n ws).2 = some PandasError.lengthsMustMatch := by
    intro env pool n ws hne
    unfold resume_eps_extraction
    rw [check_nonempty ws hne]
  exact ⟨hraise env0 pool0 50 wsDone (by decide), by decide, hraise,
    fun env pool n => rfl⟩

theorem resume_run_fst (env : FetchEnv) (pool : PoolEnv) (n : Nat) (ws : WorkSet) :
    (resume_eps_extraction env pool n ws).1 = ws := by
  by_cases hne : ws = []
  · subst hne
    rfl
  · unfold resume_eps_extraction
    rw [check_nonempty ws hne]

/-- C3: resume never re-executes or modifies a Succeeded or Failed row:
on every non-empty frame the call raises inside check_processing_progress
(line 256) before any row is selected, submitted or written, and on the
empty frame it returns the frame unchanged, so the frame the caller
holds after the call always equals the input frame; in particular every
row whose status is not Pending keeps its status and result fields bit
for bit. -/
theorem resume_frame (env : FetchEnv) (pool : PoolEnv) (n : Nat) (ws : WorkSet) :
    (resume_eps_extraction env pool n ws).1 = ws
    ∧ ∀ i, i < ws.length → (ws.getD i default).status ≠ Status.pending →
        (resume_eps_extraction env pool n ws).1.getD i default = ws.getD i default := by
  refine ⟨resume_run_fst env pool n ws, ?_⟩
  intro i _ _
  rw [resume_run_fst env pool n ws]

/-- Witness for C3 at a concrete frame holding a Failed row. -/
theorem resume_frame_witness :
    (1 < wsW.length ∧ (wsW.getD 1 default).status ≠ Status.pending)
    ∧ (resume_eps_extraction env0 pool0 50 wsW).1.getD 1 default
        = wsW.getD 1 default :=
  ⟨⟨by decide, by decide⟩,
    (resume_frame env0 pool0 50 wsW).2 1 (by decide) (by decide)⟩

/-- A one-row frame whose only row has no URLs. -/
def ws4 : WorkSet := [⟨0, [], Eps.blank⟩]

/-- C4 counterexample: running the chunked extractor on a frame whose
only row has no URLs does not mark that row Succeeded with an empty
result; the row keeps the pending sentinel. -/
theorem zero_url_claim_cex :
    ¬ (((extract_eps_with_requests_html_chunked env0 pool0 50 ws4).getD 0 default).status
          = Status.succeeded
        ∧ ((extract_eps_with_requests_html_chunked env0 pool0 50 ws4).getD 0 default).eps
          = Eps.vals []) := by
  decide

/-- C4 (amended): a row with no URLs is never submitted to the pool and
triggers no fetch, but instead of being marked Succeeded with an empty
result its eps cell is left at the pending sentinel, so its status after
the run is Pending. -/
theorem zero_url_item_spec (env : FetchEnv) (pool : PoolEnv) (n : Nat) (ws : WorkSet)
    (hk : (ws.map WorkItem.key).Nodup) (hn : 0 < n) :
    (∀ it ∈ select_batches (reset_eps ws), it.xbrl ≠ [])
    ∧ ∀ i, i < ws.length → (ws.getD i default).xbrl = [] →
        (extract_eps_with_requests_html_chunked env pool n ws).getD i default
            = { ws.getD i default with eps := Eps.blank }
        ∧ ((extract_eps_with_requests_html_chunked env pool n ws).getD i default).status
            = Status.pending := by
  constructor
  · intro it hit he
    have hcond := (List.mem_filter.1 hit).2
    rw [he] at hcond
    simp at hcond
  · intro i hi hx
    rw [extract_eq_map env pool n ws hk hn]
    have hi' : i < (ws.map (extract_item env pool)).length := by
      rw [List.length_map]
      exact hi
    rw [getD_lt _ default i hi', getD_lt ws default i hi, List.getElem_map]
    rw [getD_lt ws default i hi] at hx
    have hcond : ¬ ((ws[i].xbrl.length != 0) = true) := by
      simp [hx]
    constructor
    · unfold extract_item
      rw [if_neg hcond]
    · unfold extract_item
      rw [if_neg hcond]
      rfl

/-- Witness for the amended C4 at a concrete frame. -/
theorem zero_url_item_spec_witness :
    ((ws4.map WorkItem.key).Nodup ∧ 0 < 50 ∧ 0 < ws4.length
      ∧ (ws4.getD 0 default).xbrl = [])
    ∧ ((extract_eps_with_requests_html_chunked env0 pool0 50 ws4).getD 0 default
          = { ws4.getD 0 default with eps := Eps.blank }
      ∧ ((extract_eps_with_requests_html_chunked env0 pool0 50 ws4).getD 0 default).status
          = Status.pending) :=
  ⟨⟨by decide, by decide, by decide, by decide⟩,
    (zero_url_item_spec env0 pool0 50 ws4 (by decide) (by decide)).2 0 (by decide) (by decide)⟩

/-- C5: the batch of one item holds exactly one entry per URL in URL
order, the slot of each URL is that URL's own extraction (so other slots
are unaffected by one failure), and a URL whose fetch or parse raised is
degraded to the none slot rather than aborting the item. -/
theorem item_task_slots (env : FetchEnv) (urls : List String) :
    (process_url_batch env urls).length = urls.length
    ∧ (∀ i, i < urls.length →
        (process_url_batch env urls).getD i none
          = extract_eps_from_url env (urls.getD i ""))
    ∧ (∀ url e, env url = Except.error e → extract_eps_from_url env url = none) := by
  refine ⟨List.length_map _ _, ?_, ?_⟩
  · intro i hi
    unfold process_url_batch
    have hi' : i < (urls.map (extract_eps_from_url env)).length := by
      rw [List.length_map]
      exact hi
    rw [getD_lt _ none i hi', getD_lt urls "" i hi, List.getElem_map]
  · intro url e he
    unfold extract_eps_from_url extract_eps_body
    rw [he]

/-- Witness for C5 at a concrete environment and URL list. -/
theorem item_task_slots_witness :
    (0 < (["u", "x"] : List String).length
      ∧ env0 "x" = Except.error PyExn.timeout)
    ∧ ((process_url_batch env0 ["u", "x"]).getD 0 none
          = extract_eps_from_url env0 ((["u", "x"] : List String).getD 0 "")
      ∧ extract_eps_from_url env0 "x" = none) :=
  ⟨⟨by decide, rfl⟩,
    ⟨(item_task_slots env0 ["u", "x"]).2.1 0 (by decide),
      (item_task_slots env0 ["u", "x"]).2.2 "x" PyExn.timeout rfl⟩⟩

/-- C6: when a chunk hits its deadline, every row of it whose recorded
eps cell is still the pending sentinel at that instant is marked with
the empty list (Failed with empty result); and rows of other chunks are
unaffected: any row with URLs whose own future completed receives its
delivered batch even when some row of the frame was cut by a chunk
deadline, so a stuck chunk does not block later chunks. -/
theorem chunk_timeout_spec (env : FetchEnv) (pool : PoolEnv) :
    (∀ chunk : List WorkItem, chunk_timed_out pool chunk = true →
      ∀ i, i < chunk.length →
        ((chunk.map (record_outcome env pool)).getD i default).eps = Eps.blank →
        ((process_chunk env pool chunk).getD i default).eps = Eps.vals [])
    ∧ (∀ (n : Nat) (ws : WorkSet), (ws.map WorkItem.key).Nodup → 0 < n →
        (∃ it ∈ ws, pool it.key = ItemOutcome.cut) →
        ∀ i, i < ws.length → (ws.getD i default).xbrl ≠ [] →
          pool ((ws.getD i default).key) = ItemOutcome.completed →
          ((extract_eps_with_requests_html_chunked env pool n ws).getD i default).eps
            = Eps.vals (process_url_batch env ((ws.getD i default).xbrl))) := by
  constructor
  · intro chunk ht i hi hblank
    unfold process_chunk
    dsimp only
    rw [ht]
    simp only [if_true]
    have hi1 : i < (chunk.map (record_outcome env pool)).length := by
      rw [List.length_map]
      exact hi
    have hi2 : i < ((chunk.map (record_outcome env pool)).map mark_unprocessed_failed).length := by
      rw [List.length_map]
      exact hi1
    rw [getD_lt _ default i hi2, List.getElem_map]
    rw [getD_lt _ default i hi1] at hblank
    unfold mark_unprocessed_failed
    rw [if_pos hblank]
  · intro n ws hk hn _hcut i hi
    rw [extract_eq_map env pool n ws hk hn]
    have hi' : i < (ws.map (extract_item env pool)).length := by
      rw [List.length_map]
      exact hi
    rw [getD_lt _ default i hi', getD_lt ws default i hi, List.getElem_map]
    intro hx hp
    have hcond : (ws[i].xbrl.length != 0) = true := by
      simp only [bne_iff_ne, ne_eq, List.length_eq_zero]
      exact hx
    unfold extract_item
    rw [if_pos hcond]
    unfold record_final
    rw [hp]

/-- Pool environment cutting the row with key 1, and a two-row chunk,
used to witness the chunk-deadline theorem. -/
def poolC : PoolEnv := fun k => if k = 1 then ItemOutcome.cut else ItemOutcome.completed

def wsC : WorkSet := [⟨0, ["u"], Eps.blank⟩, ⟨1, ["v"], Eps.blank⟩]

/-- Witness for C6 at a concrete chunk with a deadline cut. -/
theorem chunk_timeout_spec_witness :
    (chunk_timed_out poolC wsC = true
      ∧ 1 < wsC.length
      ∧ ((wsC.map (record_outcome env0 poolC)).getD 1 default).eps = Eps.blank)
    ∧ ((process_chunk env0 poolC wsC).getD 1 default).eps = Eps.vals []
    ∧ ((extract_eps_with_requests_html_chunked env0 poolC 50 wsC).getD 0 default).eps
        = Eps.vals (process_url_batch env0 ((wsC.getD 0 default).xbrl)) :=
  ⟨⟨by decide, by decide, by decide⟩,
    (chunk_timeout_spec env0 poolC).1 wsC (by decide) 1 (by decide) (by decide),
    (chunk_timeout_spec env0 poolC).2 50 wsC (by decide) (by decide)
      ⟨⟨1, ["v"], Eps.blank⟩, by decide, by decide⟩ 0 (by decide) (by decide) (by decide)⟩

/-- Timing model of the collection loop (lines 166 to 187) for one row:
dur gives the wall-clock completion time of the row's future, measured
from the chunk start.  as_completed yields a future only once it has
completed (and only within the chunk deadline), so the Future.result
call at line 173 always finds a finished future and returns its value
at once; its 60-second timeout argument never comes into play and the
per-batch TimeoutError handler at lines 177 to 181 is unreachable, as
is the generic handler at lines 183 to 187 (process_url_batch returns
instead of raising).  A future not completed by the chunk deadline is
never yielded; its row is swept by the chunk-level except instead (see
process_chunk and chunk_timed_out). -/
def collect_completed_row (env : FetchEnv) (dur : Nat → Nat) (chunk_timeout : Nat)
    (it : WorkItem) : WorkItem :=
  if dur it.key ≤ chunk_timeout then
    { it with eps := Eps.vals (process_url_batch env it.xbrl) }
  else it

/-- A slow task: its future completes only after 120 seconds, double
the 60-second per-item timeout argument at line 173. -/
def durSlow : Nat → Nat := fun _ => 120

/-- C7 (code bug): the per-item deadline is never enforced: every row
whose future completes within the chunk deadline is recorded with its
full delivered batch whatever its duration, so the Failed-with-empty
branches at lines 177 to 187 cannot run.  At the concrete failing input
a task taking 120 seconds, beyond the per-item timeout of 60, still
ends with its complete batch and status Succeeded instead of the
claimed Failed with an empty result. -/
theorem item_timeout_dead :
    (∀ (env : FetchEnv) (dur : Nat → Nat) (chunk_timeout : Nat) (it : WorkItem),
      dur it.key ≤ chunk_timeout →
        collect_completed_row env dur chunk_timeout it
          = { it with eps := Eps.vals (process_url_batch env it.xbrl) })
    ∧ 60 < durSlow 0
    ∧ (collect_completed_row env0 durSlow 600 ⟨0, ["u"], Eps.blank⟩).eps
        = Eps.vals [some "1.5"]
    ∧ (collect_completed_row env0 durSlow 600 ⟨0, ["u"], Eps.blank⟩).status
        = Status.succeeded := by
  refine ⟨?_, by decide, by decide, by decide⟩
  intro env dur chunk_timeout it h
  unfold collect_completed_row
  rw [if_pos h]

/-- A frame of 120 rows, each with one URL, as in the worked example. -/
def ws120 : WorkSet := (List.range 120).map (fun i => ⟨i, ["u"], Eps.blank⟩)

set_option maxRecDepth 4000 in
/-- C8: the selected rows are sliced into consecutive runs of at most n
rows whose concatenation is the selected list itself (order preserved,
slices processed in that order by the chunk loop), and the selection of
a 120-row one-URL frame with chunk size 50 splits into slices of sizes
50, 50 and 20. -/
theorem chunking_spec :
    (∀ n : Nat, 0 < n → ∀ l : List WorkItem,
      (chunk_slices n l).flatten = l ∧ ∀ c ∈ chunk_slices n l, c.length ≤ n)
    ∧ (chunk_slices 50 (select_batches (reset_eps ws120))).map List.length
        = [50, 50, 20] := by
  refine ⟨fun n hn l => ⟨chunk_slices_flatten n hn l, chunk_slices_length_le n l⟩, ?_⟩
  decide

/-- Witness for C8 at a concrete positive chunk size and frame. -/
theorem chunking_spec_witness :
    0 < 50
    ∧ ((chunk_slices 50 wsC).flatten = wsC
      ∧ ∀ c ∈ chunk_slices 50 wsC, c.length ≤ 50) :=
  ⟨by decide, chunking_spec.1 50 (by decide) wsC⟩

/-- C9: the per-URL layer is total at its interface: every exception of
the fetch-parse body (timeouts, HTTP errors, malformed documents) is
absorbed by the handlers into a none value instead of propagating, every
normal value of the body is returned as is, and the batch function
therefore always returns a list with one entry per URL. -/
theorem extraction_total_spec (env : FetchEnv) :
    (∀ url e, extract_eps_body env url = Except.error e →
      extract_eps_from_url env url = none)
    ∧ (∀ url v, extract_eps_body env url = Except.ok v →
      extract_eps_from_url env url = v)
    ∧ ∀ urls : List String, (process_url_batch env urls).length = urls.length := by
  refine ⟨?_, ?_, fun urls => List.length_map _ _⟩
  · intro url e he
    unfold extract_eps_from_url
    rw [he]
  · intro url v hv
    unfold extract_eps_from_url
    rw [hv]

/-- Witness for C9 at a concrete environment: one URL whose fetch raises
a timeout, one URL that parses to a value. -/
theorem extraction_total_spec_witness :
    (extract_eps_body env0 "x" = Except.error PyExn.timeout
      ∧ extract_eps_body env0 "u" = Except.ok (some "1.5"))
    ∧ (extract_eps_from_url env0 "x" = none
      ∧ extract_eps_from_url env0 "u" = some "1.5") :=
  ⟨⟨rfl, rfl⟩,
    ⟨(extraction_total_spec env0).1 "x" PyExn.timeout rfl,
      (extraction_total_spec env0).2.1 "u" (some "1.5") rfl⟩⟩

theorem extract_item_reset (env : FetchEnv) (pool : PoolEnv) (it : WorkItem) :
    extract_item env pool { it with eps := Eps.blank } = extract_item env pool it := by
  cases it with
  | mk k x e =>
    unfold extract_item record_final
    by_cases hx : List.length x != 0 <;> cases hp : pool k <;> simp [hx, hp]

/-- C10: the chunked extractor resets every eps cell to the pending
sentinel before selecting work, so prior statuses and results are
discarded (running it on the frame and on its reset copy gives the same
output), and every row with at least one URL ends at the outcome of a
fresh submission of that row regardless of what was recorded before. -/
theorem extract_reset_spec (env : FetchEnv) (pool : PoolEnv) (n : Nat) (ws : WorkSet)
    (hk : (ws.map WorkItem.key).Nodup) (hn : 0 < n) :
    extract_eps_with_requests_html_chunked env pool n ws
        = extract_eps_with_requests_html_chunked env pool n (reset_eps ws)
    ∧ ∀ i, i < ws.length → (ws.getD i default).xbrl ≠ [] →
        ((extract_eps_with_requests_html_chunked env pool n ws).getD i default).eps
          = (record_final env pool (ws.getD i default)).eps := by
  have hk0 : ((reset_eps ws).map WorkItem.key).Nodup := by
    rw [reset_eps_keys]
    exact hk
  constructor
  · rw [extract_eq_map env pool n ws hk hn,
      extract_eq_map env pool n (reset_eps ws) hk0 hn]
    unfold reset_eps
    rw [List.map_map]
    exact List.map_congr_left (fun it _ => (extract_item_reset env pool it).symm)
  · intro i hi
    rw [extract_eq_map env pool n ws hk hn]
    have hi' : i < (ws.map (extract_item env pool)).length := by
      rw [List.length_map]
      exact hi
    rw [getD_lt _ default i hi', getD_lt ws default i hi, List.getElem_map]
    intro hx
    have hcond : (ws[i].xbrl.length != 0) = true := by
      simp only [bne_iff_ne, ne_eq, List.length_eq_zero]
      exact hx
    unfold extract_item
    rw [if_pos hcond]

/-- Witness for C10 at a concrete frame with recorded prior results. -/
theorem extract_reset_spec_witness :
    ((wsW.map WorkItem.key).Nodup ∧ 0 < 50 ∧ 0 < wsW.length
      ∧ (wsW.getD 0 default).xbrl ≠ [])
    ∧ (extract_eps_with_requests_html_chunked env0 pool0 50 wsW
          = extract_eps_with_requests_html_chunked env0 pool0 50 (reset_eps wsW)
      ∧ ((extract_eps_with_requests_html_chunked env0 pool0 50 wsW).getD 0 default).eps
          = (record_final env0 pool0 (wsW.getD 0 default)).eps) :=
  ⟨⟨by decide, by decide, by decide, by decide⟩,
    (extract_reset_spec env0 pool0 50 wsW (by decide) (by decide)).1,
    (extract_reset_spec env0 pool0 50 wsW (by decide) (by decide)).2 0 (by decide) (by decide)⟩

end StockEps
